import Mathlib

/-!
Verification of the stocker transaction ledger (src/stocker/tmp.py).

The Python module is embedded shallowly:
* a Python `str` becomes a `List Char`; `str.split('-')` becomes `splitDash`;
* `int(component)` becomes `parseNat`, modelling `int()` on the dash-free
  strings `split('-')` produces: surrounding whitespace is stripped, one
  leading `'+'` sign is allowed (a `'-'` cannot occur in such a component),
  and single underscores may separate digits;
* Python numbers (`price`, the fee rates) become `ℚ`; `quantity` is a
  Python `int` and becomes `Int`;
* a failing `assert` / `KeyError` / `ValueError` is modelled as an error
  value (`Option`/`Err`); where the Python object is mutated before the
  assertion fires, the model returns the mutated state together with the
  error flag, mirroring the state an exception handler would observe;
* the insertion-ordered Python dict `_tr_recorder` becomes an association
  list with dict semantics (`recorderFind` / `recorderInsert`; assignment
  to an existing key replaces the value in place).
-/

namespace Stocker

/-- A Python string, as a list of characters. -/
abbrev Timing := List Char

/-- `str.split('-')`: splitting `""` gives `[""]`, consecutive dashes give
empty components, exactly as in Python. -/
def splitDash : Timing → List Timing
  | [] => [[]]
  | c :: rest =>
    let r := splitDash rest
    if c = '-' then [] :: r
    else
      match r with
      | [] => [[c]]
      | g :: gs => (c :: g) :: gs

/-- The ASCII whitespace `int()` strips from both ends (`' \t\n\r\v\f'`). -/
def isPySpace (c : Char) : Bool :=
  c == ' ' || c == '\t' || c == '\n' || c == '\r' || c == '\x0b' || c == '\x0c'

/-- Strip the whitespace `int()` ignores from both ends. -/
def stripSpaces (cs : Timing) : Timing :=
  ((cs.dropWhile isPySpace).reverse.dropWhile isPySpace).reverse

/-- After the first digit, `int()` accepts further digits with single
underscores allowed between digits (not trailing, not doubled). -/
def underscoreDigits : Timing → Bool
  | [] => true
  | '_' :: c :: rest => c.isDigit && underscoreDigits rest
  | ['_'] => false
  | c :: rest => c.isDigit && underscoreDigits rest

/-- The numeric value of an accepted digit group: drop the underscores
and fold the decimal digits. -/
def digitsVal (cs : Timing) : Nat :=
  (cs.filter fun c => c != '_').foldl (fun a c => a * 10 + (c.toNat - 48)) 0

/-- `int(component)` on a component produced by `split('-')`: `int()`
strips surrounding whitespace, then allows one sign, then a non-empty
digit string with single underscores between digits; anything else
raises `ValueError`, modelled as `none`.  A component coming out of
`split('-')` is dash-free, so the only sign that can occur is `'+'` and
the value is a natural number.  (ASCII model: Python additionally
accepts unicode digits and unicode whitespace.) -/
def parseNat (cs : Timing) : Option Nat :=
  let t := stripSpaces cs
  let t2 := if t.head? = some '+' then t.tail else t
  match t2 with
  | [] => none
  | c :: rest =>
    if c.isDigit && underscoreDigits rest then some (digitsVal (c :: rest))
    else none

/-- `Transaction.timing2id`: split on `'-'`, require exactly three
components (`assert len(tmp) == 3`), parse each as an integer, and return
`tmp[0] * 10^6 + tmp[1] * 10^2 + tmp[2]`.  `none` models the
`AssertionError`/`ValueError` raised on malformed input. -/
def timing2id (timing : Timing) : Option Nat :=
  match splitDash timing with
  | [a, b, c] =>
    match parseNat a, parseNat b, parseNat c with
    | some y, some md, some s => some (y * 10 ^ 6 + md * 10 ^ 2 + s)
    | _, _, _ => none
  | _ => none

/-- The timing strings accepted by `Transaction.__init__`: exactly three
dash-separated components, each parsing as an integer. -/
def wellFormedTiming (t : Timing) : Bool :=
  (splitDash t).length == 3 && (splitDash t).all fun g => (parseNat g).isSome

/-- The fee-rate configuration a transaction reads back from its owning
stock (`self.stock.commission` and friends); the rates never change after
the stock is created, so the back-reference is modelled as a snapshot. -/
structure StockRates where
  commission : ℚ
  stamp_duty : ℚ
  transfer_fee : ℚ

/-- A `SellTransaction`: the fields `Transaction.__init__` stores. -/
structure SellTransaction where
  stock : StockRates
  timing : Timing
  id : Nat
  price : ℚ
  quantity : Int

/-- A `BuyTransaction`: the `Transaction` fields plus `empty` (initially
`False`) and the owned list `sells` (initially `[]`). -/
structure BuyTransaction where
  stock : StockRates
  timing : Timing
  id : Nat
  price : ℚ
  quantity : Int
  empty : Bool
  sells : List SellTransaction

/-- `SellTransaction(stock, timing, price, quantity)`; `none` models the
error raised by `timing2id` on a malformed timing. -/
def mkSellTransaction (stock : StockRates) (timing : Timing) (price : ℚ)
    (quantity : Int) : Option SellTransaction :=
  (timing2id timing).map fun i => ⟨stock, timing, i, price, quantity⟩

/-- `BuyTransaction(stock, timing, price, quantity)`. -/
def mkBuyTransaction (stock : StockRates) (timing : Timing) (price : ℚ)
    (quantity : Int) : Option BuyTransaction :=
  (timing2id timing).map fun i => ⟨stock, timing, i, price, quantity, false, []⟩

/-- `Transaction.fee = self.price * self.quantity` (buy variant). -/
def BuyTransaction.fee (t : BuyTransaction) : ℚ := t.price * t.quantity

/-- `BuyTransaction.service_percent = commission + transfer_fee`. -/
def BuyTransaction.service_percent (t : BuyTransaction) : ℚ :=
  t.stock.commission + t.stock.transfer_fee

/-- `Transaction.fee_final = self.fee * (1 - self.service_percent)` (buy). -/
def BuyTransaction.fee_final (t : BuyTransaction) : ℚ :=
  t.fee * (1 - t.service_percent)

/-- `Transaction.service_charge = self.fee * self.service_percent` (buy). -/
def BuyTransaction.service_charge (t : BuyTransaction) : ℚ :=
  t.fee * t.service_percent

/-- `Transaction.fee` (sell variant). -/
def SellTransaction.fee (t : SellTransaction) : ℚ := t.price * t.quantity

/-- `SellTransaction.service_percent = commission + transfer_fee + stamp_duty`. -/
def SellTransaction.service_percent (t : SellTransaction) : ℚ :=
  t.stock.commission + t.stock.transfer_fee + t.stock.stamp_duty

/-- `Transaction.fee_final` (sell). -/
def SellTransaction.fee_final (t : SellTransaction) : ℚ :=
  t.fee * (1 - t.service_percent)

/-- `Transaction.service_charge` (sell). -/
def SellTransaction.service_charge (t : SellTransaction) : ℚ :=
  t.fee * t.service_percent

/-- `BuyTransaction.quantity_left`: fold `delta -= sell.quantity` over the
sells, set `self.empty = (delta == 0)` as a side effect, return `delta`.
The result is the returned value paired with the updated object. -/
def BuyTransaction.quantity_left (b : BuyTransaction) : Int × BuyTransaction :=
  let delta := b.sells.foldl (fun d s => d - s.quantity) b.quantity
  (delta, { b with empty := delta == 0 })

/-- `BuyTransaction.sell`: append `tr` to `self.sells` FIRST, then
`assert self.quantity_left >= 0`.  The `Bool` is `true` on success and
`false` when the assertion fires; either way the returned object carries
the appended sell and the `empty` flag updated by `quantity_left`. -/
def BuyTransaction.sell (b : BuyTransaction) (tr : SellTransaction) :
    Bool × BuyTransaction :=
  let b1 : BuyTransaction := { b with sells := b.sells ++ [tr] }
  let p := b1.quantity_left
  (decide (0 ≤ p.1), p.2)

/-- A sequence of `BuyTransaction.sell` calls, stopping at the first
failure. -/
def attachList (b : BuyTransaction) : List SellTransaction → Bool × BuyTransaction
  | [] => (true, b)
  | tr :: rest =>
    let r := b.sell tr
    if r.1 then attachList r.2 rest else (false, r.2)

/-- The errors the core can raise: `format` collects the
`AssertionError`/`ValueError` of timing validation, `notFound` the
`KeyError` of the ledger lookup, `quantityExceeded` the oversell
assertion in `BuyTransaction.sell`. -/
inductive Err where
  | format
  | notFound
  | quantityExceeded
deriving DecidableEq

/-- A `Stock`: name, numeric id, the three fee rates, and the
insertion-ordered dict `_tr_recorder` from buy identifier to
`BuyTransaction`, modelled as an association list. -/
structure Stock where
  name : String
  id : Int
  commission : ℚ
  stamp_duty : ℚ
  transfer_fee : ℚ
  tr_recorder : List (Nat × BuyTransaction)

/-- The rate snapshot a transaction owned by this stock reads. -/
def Stock.rates (s : Stock) : StockRates :=
  ⟨s.commission, s.stamp_duty, s.transfer_fee⟩

/-- Dict lookup `d[k]`: first (and only) entry with key `k`. -/
def recorderFind (d : List (Nat × BuyTransaction)) (k : Nat) :
    Option BuyTransaction :=
  match d with
  | [] => none
  | p :: rest => if p.1 == k then some p.2 else recorderFind rest k

/-- Dict assignment `d[k] = v`: replace the value in place when the key
is present (keeping its position), otherwise append — Python dict
semantics. -/
def recorderInsert (d : List (Nat × BuyTransaction)) (k : Nat)
    (v : BuyTransaction) : List (Nat × BuyTransaction) :=
  if d.any (fun p => p.1 == k) then
    d.map fun p => if p.1 == k then (k, v) else p
  else d ++ [(k, v)]

/-- `Stock.buy`: build a `BuyTransaction` (which may fail on a malformed
timing) and store it under its identifier — `self._tr_recorder[tr.id] = tr`,
silently overwriting any existing entry. -/
def Stock.buy (s : Stock) (timing : Timing) (price : ℚ) (quantity : Int) :
    Option Err × Stock :=
  match mkBuyTransaction s.rates timing price quantity with
  | none => (some Err.format, s)
  | some tr =>
    (none, { s with tr_recorder := recorderInsert s.tr_recorder tr.id tr })

/-- `Stock.sell`: build the `SellTransaction` first, then look up
`self._tr_recorder[Transaction.timing2id(buy_timing)]` (a missing key
raises `KeyError`, modelled as `Err.notFound` with the stock unchanged),
then delegate to `BuyTransaction.sell` on the found buy; the buy object
stored in the dict is mutated in place, also when the oversell assertion
fires. -/
def Stock.sell (s : Stock) (buy_timing timing : Timing) (price : ℚ)
    (quantity : Int) : Option Err × Stock :=
  match mkSellTransaction s.rates timing price quantity with
  | none => (some Err.format, s)
  | some tr =>
    match timing2id buy_timing with
    | none => (some Err.format, s)
    | some bid =>
      match recorderFind s.tr_recorder bid with
      | none => (some Err.notFound, s)
      | some b =>
        let r := b.sell tr
        ((if r.1 then none else some Err.quantityExceeded),
         { s with tr_recorder := recorderInsert s.tr_recorder bid r.2 })

/-! Concrete values: the scenario from the module's entry point
(`Stock('ABC', 30063, commission=0.0003, stamp_duty=0.0005,
transfer_fee=0.00002)`), plus small inputs used in closed instances. -/

/-- The fee rates of the scenario stock. -/
def scenarioRates : StockRates := ⟨0.0003, 0.0005, 0.00002⟩

/-- `Stock('ABC', 30063, commission=0.0003, stamp_duty=0.0005, transfer_fee=0.00002)`. -/
def scenarioStock0 : Stock := ⟨"ABC", 30063, 0.0003, 0.0005, 0.00002, []⟩

/-- After `stock.buy('2024-0205-10', 25.6, 200)`. -/
def scenarioStock1 : Stock :=
  (scenarioStock0.buy "2024-0205-10".data 25.6 200).2

/-- `stock.sell('2024-0205-10', '2024-0312-14', 36.36, 200)`. -/
def scenarioResult : Option Err × Stock :=
  scenarioStock1.sell "2024-0205-10".data "2024-0312-14".data 36.36 200

/-- The ledger after the scenario sell. -/
def scenarioStock2 : Stock := scenarioResult.2

/-- The sell transaction the scenario records. -/
def scenarioSellTr : SellTransaction :=
  ⟨scenarioRates, "2024-0312-14".data, 2024031214, 36.36, 200⟩

/-- The scenario buy as it stands after the sell is attached. -/
def scenarioBuyTr : BuyTransaction :=
  ⟨scenarioRates, "2024-0205-10".data, 2024020510, 25.6, 200, true, [scenarioSellTr]⟩

/-! Helper lemmas about the embedded operations. -/

theorem foldl_sub_eq (l : List SellTransaction) (q : Int) :
    l.foldl (fun d s => d - s.quantity) q =
      q - (l.map SellTransaction.quantity).sum := by
  induction l generalizing q with
  | nil => simp
  | cons s rest ih => simp [ih, sub_sub]

theorem quantity_left_fst (b : BuyTransaction) :
    (b.quantity_left).1 = b.quantity - (b.sells.map SellTransaction.quantity).sum := by
  simp [BuyTransaction.quantity_left, foldl_sub_eq]

theorem sell_snd_sells (b : BuyTransaction) (tr : SellTransaction) :
    (b.sell tr).2.sells = b.sells ++ [tr] := rfl

theorem sell_snd_quantity (b : BuyTransaction) (tr : SellTransaction) :
    (b.sell tr).2.quantity = b.quantity := rfl

theorem sell_fst_eq (b : BuyTransaction) (tr : SellTransaction) :
    (b.sell tr).1 =
      decide (0 ≤ b.quantity -
        ((b.sells.map SellTransaction.quantity).sum + tr.quantity)) := by
  show (decide (0 ≤ (BuyTransaction.quantity_left _).1)) = _
  rw [quantity_left_fst]
  simp [sub_sub]

theorem quantity_left_fst_sell_snd (b : BuyTransaction) (tr : SellTransaction) :
    ((b.sell tr).2.quantity_left).1 =
      b.quantity - ((b.sells.map SellTransaction.quantity).sum + tr.quantity) := by
  rw [quantity_left_fst, sell_snd_quantity, sell_snd_sells]
  simp [sub_sub]

theorem attachList_true_spec (l : List SellTransaction) :
    ∀ b r : BuyTransaction, attachList b l = (true, r) →
      r.quantity = b.quantity ∧ r.sells = b.sells ++ l ∧
        (0 ≤ (b.quantity_left).1 → 0 ≤ (r.quantity_left).1) := by
  induction l with
  | nil =>
    intro b r h
    simp only [attachList, Prod.mk.injEq] at h
    simp [h.2.symm]
  | cons tr rest ih =>
    intro b r h
    simp only [attachList] at h
    cases hc : (b.sell tr).1 with
    | false => rw [hc] at h; simp at h
    | true =>
      rw [hc] at h
      simp only [if_true] at h
      obtain ⟨hq, hs, himp⟩ := ih _ _ h
      have hnn : 0 ≤ ((b.sell tr).2.quantity_left).1 := by
        rw [sell_fst_eq] at hc
        rw [quantity_left_fst_sell_snd]
        exact of_decide_eq_true hc
      exact ⟨by rw [hq, sell_snd_quantity],
        by rw [hs, sell_snd_sells, List.append_assoc]; rfl,
        fun _ => himp hnn⟩

theorem recorderFind_cons (p : Nat × BuyTransaction)
    (rest : List (Nat × BuyTransaction)) (k : Nat) :
    recorderFind (p :: rest) k =
      if p.1 == k then some p.2 else recorderFind rest k := rfl

theorem recorderFind_map_replace (k : Nat) (v : BuyTransaction) :
    ∀ d : List (Nat × BuyTransaction), d.any (fun p => p.1 == k) = true →
      recorderFind (d.map fun p => if p.1 == k then (k, v) else p) k = some v := by
  intro d
  induction d with
  | nil => simp
  | cons p rest ih =>
    intro hany
    cases hp : (p.1 == k) with
    | true =>
      rw [List.map_cons, if_pos hp, recorderFind_cons]
      simp
    | false =>
      simp only [List.any_cons, hp, Bool.false_or] at hany
      rw [List.map_cons, if_neg (by simp [hp]), recorderFind_cons,
        if_neg (by simp [hp])]
      exact ih hany

theorem recorderFind_append_new (k : Nat) (v : BuyTransaction) :
    ∀ d : List (Nat × BuyTransaction), d.any (fun p => p.1 == k) = false →
      recorderFind (d ++ [(k, v)]) k = some v := by
  intro d
  induction d with
  | nil => simp [recorderFind]
  | cons p rest ih =>
    intro hany
    simp only [List.any_cons, Bool.or_eq_false_iff] at hany
    simp [recorderFind, hany.1, ih hany.2]

theorem recorderFind_insert (d : List (Nat × BuyTransaction)) (k : Nat)
    (v : BuyTransaction) : recorderFind (recorderInsert d k v) k = some v := by
  unfold recorderInsert
  by_cases hany : d.any (fun p => p.1 == k) = true
  · rw [if_pos hany]
    exact recorderFind_map_replace k v d hany
  · rw [if_neg hany]
    exact recorderFind_append_new k v d (Bool.eq_false_iff.mpr hany)

/-- Lexicographic strict order on component triples `(Y, MD, S)`. -/
def lexLt (y md s y2 md2 s2 : Nat) : Prop :=
  y < y2 ∨ (y = y2 ∧ (md < md2 ∨ (md = md2 ∧ s < s2)))

/-- `timing2id` produces a value exactly on well-formed timings. -/
theorem timing2id_isSome_eq (t : Timing) :
    (timing2id t).isSome = wellFormedTiming t := by
  unfold timing2id wellFormedTiming
  rcases hl : splitDash t with _ | ⟨a, _ | ⟨b, _ | ⟨c, _ | ⟨d, l4⟩⟩⟩⟩
  · simp
  · simp
  · simp
  · cases hpa : parseNat a <;> cases hpb : parseNat b <;> cases hpc : parseNat c <;>
      simp [hpa, hpb, hpc]
  · simp

/-! Further concrete values used to instantiate the claim theorems. -/

/-- A small fresh buy: 10 units at 25.6. -/
def wBuy : BuyTransaction :=
  ⟨scenarioRates, "2024-0205-10".data, 2024020510, 25.6, 10, false, []⟩

/-- A sell of 3 units. -/
def wSellA : SellTransaction :=
  ⟨scenarioRates, "2024-0310-01".data, 2024031001, 1, 3⟩

/-- A sell of 4 units. -/
def wSellB : SellTransaction :=
  ⟨scenarioRates, "2024-0311-01".data, 2024031101, 1, 4⟩

/-- `wBuy` after attaching `wSellA` then `wSellB`. -/
def wBuyAfter : BuyTransaction :=
  ⟨scenarioRates, "2024-0205-10".data, 2024020510, 25.6, 10, false, [wSellA, wSellB]⟩

/-- A buy of 100 units used to exercise the oversell assertion. -/
def ceBuy : BuyTransaction :=
  ⟨scenarioRates, "2024-0101-01".data, 2024010101, 10, 100, false, []⟩

/-- A sell of 200 units, more than `ceBuy` holds. -/
def ceSell : SellTransaction :=
  ⟨scenarioRates, "2024-0202-02".data, 2024020202, 10, 200⟩

/-- A sell with negative quantity. -/
def negSell : SellTransaction :=
  ⟨scenarioRates, "2024-0404-04".data, 2024040404, 1, -5⟩

/-- A stock with the default rates and an empty ledger. -/
def dupStock0 : Stock := ⟨"DUP", 1, 0.0005, 0.0005, 0.00001, []⟩

/-- `dupStock0` after `buy('2024-0101-01', 10, 5)`. -/
def dupStock1 : Stock := (dupStock0.buy "2024-0101-01".data 10 5).2

/-- A second buy with the identical timing: `buy('2024-0101-01', 20, 7)`. -/
def dupResult : Option Err × Stock := dupStock1.buy "2024-0101-01".data 20 7

/-- C1: for every `BuyTransaction` (with the data model's non-negative
quantity, starting from the empty sell list), after any sequence of
successful `attach_sell` (`BuyTransaction.sell`) calls the attached sells
are exactly the sequence, `quantity_left` equals the buy's quantity minus
the sum of the quantities of the attached sells, and this value is never
negative. -/
theorem attach_sell_quantity_invariant (b : BuyTransaction)
    (l : List SellTransaction) (r : BuyTransaction)
    (hq : 0 ≤ b.quantity) (h0 : b.sells = [])
    (h : attachList b l = (true, r)) :
    r.sells = l ∧
    (r.quantity_left).1 = b.quantity - (l.map SellTransaction.quantity).sum ∧
    0 ≤ (r.quantity_left).1 := by
  obtain ⟨hquant, hs, himp⟩ := attachList_true_spec l b r h
  rw [h0, List.nil_append] at hs
  refine ⟨hs, ?_, ?_⟩
  · rw [quantity_left_fst, hs, hquant]
  · apply himp
    rw [quantity_left_fst, h0]
    simpa using hq

/-- Witness for C1 at a concrete run: two sells of 3 and 4 units against
a buy of 10 units leave 3 units. -/
theorem attach_sell_quantity_invariant_witness :
    wBuyAfter.sells = [wSellA, wSellB] ∧
    (wBuyAfter.quantity_left).1 =
      wBuy.quantity - ([wSellA, wSellB].map SellTransaction.quantity).sum ∧
    0 ≤ (wBuyAfter.quantity_left).1 :=
  attach_sell_quantity_invariant wBuy [wSellA, wSellB] wBuyAfter
    (by decide) rfl rfl

/-- C2 (counterexample to the claim as stated): attaching a 200-unit sell
to a 100-unit buy fails, yet the failed sell IS in the sell list
afterwards — `BuyTransaction.sell` appends before it checks. -/
theorem attach_sell_atomicity_cex :
    (ceBuy.sell ceSell).1 = false ∧
    (ceBuy.sell ceSell).2.sells = [ceSell] ∧
    (ceBuy.sell ceSell).2.sells ≠ ceBuy.sells :=
  ⟨rfl, rfl, fun h => List.cons_ne_nil ceSell [] h⟩

/-- C2 (amended): attaching a sell whose quantity exceeds `quantity_left`
fails (the assertion fires), but the sell list is mutated: the failed
sell has been appended to it. -/
theorem attach_sell_fail_appends (b : BuyTransaction) (tr : SellTransaction)
    (h : (b.quantity_left).1 < tr.quantity) :
    (b.sell tr).1 = false ∧ (b.sell tr).2.sells = b.sells ++ [tr] := by
  refine ⟨?_, sell_snd_sells b tr⟩
  rw [sell_fst_eq]
  rw [quantity_left_fst] at h
  simp only [decide_eq_false_iff_not, not_le]
  omega

/-- Witness for the amended C2 at the concrete oversell. -/
theorem attach_sell_fail_appends_witness :
    (ceBuy.sell ceSell).1 = false ∧
    (ceBuy.sell ceSell).2.sells = ceBuy.sells ++ [ceSell] :=
  attach_sell_fail_appends ceBuy ceSell (by decide)

/-- C4: for every buy and sell transaction, `fee = price × quantity`,
`service_charge = fee × service_percent`,
`fee_final = fee × (1 − service_percent)`, hence
`fee_final + service_charge = fee`; the buy rate is
commission + transfer_fee, the sell rate additionally adds stamp_duty. -/
theorem fee_decomposition (b : BuyTransaction) (s : SellTransaction) :
    b.fee = b.price * b.quantity ∧
    b.service_charge = b.fee * b.service_percent ∧
    b.fee_final = b.fee * (1 - b.service_percent) ∧
    b.fee_final + b.service_charge = b.fee ∧
    b.service_percent = b.stock.commission + b.stock.transfer_fee ∧
    s.fee = s.price * s.quantity ∧
    s.service_charge = s.fee * s.service_percent ∧
    s.fee_final = s.fee * (1 - s.service_percent) ∧
    s.fee_final + s.service_charge = s.fee ∧
    s.service_percent =
      s.stock.commission + s.stock.transfer_fee + s.stock.stamp_duty :=
  ⟨rfl, rfl, rfl,
    by unfold BuyTransaction.fee_final BuyTransaction.service_charge; ring,
    rfl, rfl, rfl, rfl,
    by unfold SellTransaction.fee_final SellTransaction.service_charge; ring,
    rfl⟩

/-- C10: `attach_sell` accepts a sell of zero or negative quantity without
error (whenever the current `quantity_left` is non-negative), the result's
`quantity_left` does not decrease, and for a fresh buy a negative-quantity
sell makes `quantity_left` strictly exceed the buy's original quantity. -/
theorem attach_sell_nonpositive_quantity (b : BuyTransaction)
    (tr : SellTransaction) (hq : tr.quantity ≤ 0)
    (hleft : 0 ≤ (b.quantity_left).1) :
    (b.sell tr).1 = true ∧
    (b.quantity_left).1 ≤ ((b.sell tr).2.quantity_left).1 ∧
    (b.sells = [] → tr.quantity < 0 →
      b.quantity < ((b.sell tr).2.quantity_left).1) := by
  rw [quantity_left_fst] at hleft
  refine ⟨?_, ?_, ?_⟩
  · rw [sell_fst_eq]
    simp only [decide_eq_true_eq]
    omega
  · rw [quantity_left_fst, quantity_left_fst_sell_snd]
    omega
  · intro h0 hneg
    rw [quantity_left_fst_sell_snd, h0]
    simp only [List.map_nil, List.sum_nil, zero_add]
    omega

/-- Witness for C10: a sell of −5 units against a fresh 10-unit buy is
accepted and leaves `quantity_left = 15 > 10`. -/
theorem attach_sell_nonpositive_quantity_witness :
    (wBuy.sell negSell).1 = true ∧
    (wBuy.quantity_left).1 ≤ ((wBuy.sell negSell).2.quantity_left).1 ∧
    (wBuy.sells = [] → negSell.quantity < 0 →
      wBuy.quantity < ((wBuy.sell negSell).2.quantity_left).1) :=
  attach_sell_nonpositive_quantity wBuy negSell (by decide) (by decide)

/-- C3: on any two well-formed timings with components `(Y, MD, S)` and
`(Y', MD', S')`, `timing2id` returns `Y·10⁶ + MD·10² + S`; restricted to
4-digit `MD` (< 10⁴) and 2-digit `S` (< 10²) the identifiers are equal
exactly when the component triples are, and the identifier order is
exactly the lexicographic order of the triples. -/
theorem timing2id_formula_inj_mono
    (t t2 a b c a2 b2 c2 : Timing) (y md s y2 md2 s2 : Nat)
    (ht : splitDash t = [a, b, c]) (ha : parseNat a = some y)
    (hb : parseNat b = some md) (hc : parseNat c = some s)
    (ht2 : splitDash t2 = [a2, b2, c2]) (ha2 : parseNat a2 = some y2)
    (hb2 : parseNat b2 = some md2) (hc2 : parseNat c2 = some s2)
    (hmd : md < 10 ^ 4) (hs : s < 10 ^ 2)
    (hmd2 : md2 < 10 ^ 4) (hs2 : s2 < 10 ^ 2) :
    timing2id t = some (y * 10 ^ 6 + md * 10 ^ 2 + s) ∧
    timing2id t2 = some (y2 * 10 ^ 6 + md2 * 10 ^ 2 + s2) ∧
    (timing2id t = timing2id t2 ↔ (y = y2 ∧ md = md2 ∧ s = s2)) ∧
    (lexLt y md s y2 md2 s2 ↔
      y * 10 ^ 6 + md * 10 ^ 2 + s < y2 * 10 ^ 6 + md2 * 10 ^ 2 + s2) := by
  have e1 : timing2id t = some (y * 10 ^ 6 + md * 10 ^ 2 + s) := by
    simp [timing2id, ht, ha, hb, hc]
  have e2 : timing2id t2 = some (y2 * 10 ^ 6 + md2 * 10 ^ 2 + s2) := by
    simp [timing2id, ht2, ha2, hb2, hc2]
  have hp4 : (10 : ℕ) ^ 4 = 10000 := by norm_num
  have hp2 : (10 : ℕ) ^ 2 = 100 := by norm_num
  have hp6 : (10 : ℕ) ^ 6 = 1000000 := by norm_num
  rw [hp4] at hmd hmd2
  rw [hp2] at hs hs2
  refine ⟨e1, e2, ?_, ?_⟩
  · rw [e1, e2]
    simp only [Option.some.injEq, hp2, hp6]
    omega
  · unfold lexLt
    rw [hp2, hp6]
    omega

/-- Witness for C3 at the two concrete timings of the entry-point
scenario. -/
theorem timing2id_formula_inj_mono_witness :
    timing2id "2024-0205-10".data = some (2024 * 10 ^ 6 + 205 * 10 ^ 2 + 10) ∧
    timing2id "2024-0312-14".data = some (2024 * 10 ^ 6 + 312 * 10 ^ 2 + 14) ∧
    (timing2id "2024-0205-10".data = timing2id "2024-0312-14".data ↔
      (2024 = 2024 ∧ 205 = 312 ∧ 10 = 14)) ∧
    (lexLt 2024 205 10 2024 312 14 ↔
      2024 * 10 ^ 6 + 205 * 10 ^ 2 + 10 <
        2024 * 10 ^ 6 + 312 * 10 ^ 2 + 14) :=
  timing2id_formula_inj_mono "2024-0205-10".data "2024-0312-14".data
    "2024".data "0205".data "10".data "2024".data "0312".data "14".data
    2024 205 10 2024 312 14
    (by decide) (by decide) (by decide) (by decide)
    (by decide) (by decide) (by decide) (by decide)
    (by decide) (by decide) (by decide) (by decide)

/-- C5 (counterexample to the claim as stated): recording a second buy
with the identical timing does NOT fail — it returns no error and the
ledger now maps the identifier to the second buy, the first one being
silently overwritten (still a single entry). -/
theorem stock_buy_duplicate_cex :
    dupResult.1 = none ∧
    recorderFind dupResult.2.tr_recorder 2024010101 =
      some ⟨dupStock0.rates, "2024-0101-01".data, 2024010101, 20, 7, false, []⟩ ∧
    dupResult.2.tr_recorder.length = 1 :=
  ⟨rfl, rfl, rfl⟩

/-- C5 (amended): `Stock.buy` with a timing whose identifier is already a
key of the buy mapping succeeds with no error and silently overwrites:
afterwards the mapping holds the newly constructed `BuyTransaction` under
that identifier. -/
theorem stock_buy_overwrites_duplicate (s : Stock) (t : Timing) (p : ℚ)
    (q : Int) (i : Nat) (hi : timing2id t = some i)
    (_hmem : (recorderFind s.tr_recorder i).isSome = true) :
    (s.buy t p q).1 = none ∧
    recorderFind (s.buy t p q).2.tr_recorder i =
      some ⟨s.rates, t, i, p, q, false, []⟩ := by
  have hmk : mkBuyTransaction s.rates t p q =
      some ⟨s.rates, t, i, p, q, false, []⟩ := by
    simp [mkBuyTransaction, hi]
  constructor
  · simp [Stock.buy, hmk]
  · show recorderFind (Stock.buy s t p q).2.tr_recorder i = _
    simp only [Stock.buy, hmk]
    exact recorderFind_insert s.tr_recorder i _

/-- Witness for the amended C5: the duplicate buy of the counterexample
ledger. -/
theorem stock_buy_overwrites_duplicate_witness :
    (dupStock1.buy "2024-0101-01".data 20 7).1 = none ∧
    recorderFind (dupStock1.buy "2024-0101-01".data 20 7).2.tr_recorder
        2024010101 =
      some ⟨dupStock1.rates, "2024-0101-01".data, 2024010101, 20, 7, false, []⟩ :=
  stock_buy_overwrites_duplicate dupStock1 "2024-0101-01".data 20 7
    2024010101 rfl rfl

/-- C6: `Stock.sell` computes the buy identifier from `buy_timing`; when
no buy with that identifier is in the mapping it fails with the
not-found error and returns the stock unchanged; otherwise it delegates
the constructed `SellTransaction` to that buy's `attach_sell` and stores
the updated buy back under the same key. -/
theorem stock_sell_lookup_spec (s : Stock) (bt t : Timing) (p : ℚ)
    (q : Int) (i : Nat) (tr : SellTransaction)
    (hmk : mkSellTransaction s.rates t p q = some tr)
    (hi : timing2id bt = some i) :
    (recorderFind s.tr_recorder i = none →
      s.sell bt t p q = (some Err.notFound, s)) ∧
    ∀ b : BuyTransaction, recorderFind s.tr_recorder i = some b →
      s.sell bt t p q =
        ((if (b.sell tr).1 then none else some Err.quantityExceeded),
         { s with tr_recorder := recorderInsert s.tr_recorder i (b.sell tr).2 }) := by
  constructor
  · intro hf
    simp [Stock.sell, hmk, hi, hf]
  · intro b hf
    simp [Stock.sell, hmk, hi, hf]

/-- Witness for C6: selling against an unknown buy timing on the scenario
ledger fails with the not-found error and leaves the ledger unchanged. -/
theorem stock_sell_lookup_spec_witness :
    Stock.sell scenarioStock1 "1999-0101-01".data "2024-0312-14".data 1 1 =
      (some Err.notFound, scenarioStock1) :=
  (stock_sell_lookup_spec scenarioStock1 "1999-0101-01".data
    "2024-0312-14".data 1 1 1999010101
    ⟨scenarioStock1.rates, "2024-0312-14".data, 2024031214, 1, 1⟩
    rfl rfl).1 rfl

/-- C7: the entry-point scenario.  On the stock with commission 0.0003,
stamp duty 0.0005, transfer fee 0.00002, after `buy('2024-0205-10', 25.6,
200)` and `sell('2024-0205-10', '2024-0312-14', 36.36, 200)`: the sell
succeeds, the ledger holds the buy with the attached sell, the buy's
`service_percent` is 0.00032, `fee` 5120 and `fee_final` 5120·(1−0.00032),
the sell's `service_percent` is 0.00082, `fee` 7272 and `fee_final`
7272·(1−0.00082), and the buy has `quantity_left = 0` and `empty = true`. -/
theorem scenario_abc_values :
    scenarioResult.1 = none ∧
    recorderFind scenarioStock2.tr_recorder 2024020510 = some scenarioBuyTr ∧
    scenarioBuyTr.service_percent = 0.00032 ∧
    scenarioBuyTr.fee = 5120 ∧
    scenarioBuyTr.fee_final = 5120 * (1 - 0.00032) ∧
    scenarioSellTr.service_percent = 0.00082 ∧
    scenarioSellTr.fee = 7272 ∧
    scenarioSellTr.fee_final = 7272 * (1 - 0.00082) ∧
    scenarioBuyTr.sells = [scenarioSellTr] ∧
    (scenarioBuyTr.quantity_left).1 = 0 ∧
    scenarioBuyTr.empty = true := by
  refine ⟨rfl, rfl, ?_, ?_, ?_, ?_, ?_, ?_, rfl, rfl, rfl⟩
  · show (0.0003 : ℚ) + 0.00002 = 0.00032
    norm_num
  · show (25.6 : ℚ) * ((200 : Int) : ℚ) = 5120
    norm_num
  · show (25.6 : ℚ) * ((200 : Int) : ℚ) * (1 - (0.0003 + 0.00002)) =
      5120 * (1 - 0.00032)
    norm_num
  · show (0.0003 : ℚ) + 0.00002 + 0.0005 = 0.00082
    norm_num
  · show (36.36 : ℚ) * ((200 : Int) : ℚ) = 7272
    norm_num
  · show (36.36 : ℚ) * ((200 : Int) : ℚ) * (1 - (0.0003 + 0.00002 + 0.0005)) =
      7272 * (1 - 0.00082)
    norm_num

/-- C8: constructing a transaction fails exactly when the timing does not
consist of three dash-separated integer components; on well-formed
timings construction succeeds and stores the identifier `timing2id`
derives. -/
theorem construct_format_check (rates : StockRates) (t : Timing) (p : ℚ)
    (q : Int) :
    (wellFormedTiming t = false →
      mkBuyTransaction rates t p q = none ∧
        mkSellTransaction rates t p q = none) ∧
    (wellFormedTiming t = true →
      ∃ n, timing2id t = some n ∧
        mkBuyTransaction rates t p q = some ⟨rates, t, n, p, q, false, []⟩ ∧
        mkSellTransaction rates t p q = some ⟨rates, t, n, p, q⟩) := by
  constructor
  · intro hw
    have hn : timing2id t = none := by
      have := timing2id_isSome_eq t
      rw [hw] at this
      exact Option.not_isSome_iff_eq_none.mp (by simp [this])
    simp [mkBuyTransaction, mkSellTransaction, hn]
  · intro hw
    have hsome : (timing2id t).isSome = true := by
      rw [timing2id_isSome_eq, hw]
    obtain ⟨n, hn⟩ := Option.isSome_iff_exists.mp hsome
    exact ⟨n, hn, by simp [mkBuyTransaction, hn],
      by simp [mkSellTransaction, hn]⟩

/-- Witness for C8: a one-component timing and a non-integer component
are rejected; the scenario timing is accepted with its derived
identifier, and so is a timing whose first component carries the
whitespace, `'+'` sign and underscore separator `int()` tolerates. -/
theorem construct_format_check_witness :
    (mkBuyTransaction scenarioRates "2024".data 1 1 = none ∧
      mkSellTransaction scenarioRates "2024".data 1 1 = none) ∧
    (mkBuyTransaction scenarioRates "2024-02x5-10".data 1 1 = none ∧
      mkSellTransaction scenarioRates "2024-02x5-10".data 1 1 = none) ∧
    (∃ n, timing2id "2024-0205-10".data = some n ∧
      mkBuyTransaction scenarioRates "2024-0205-10".data 1 1 =
        some ⟨scenarioRates, "2024-0205-10".data, n, 1, 1, false, []⟩ ∧
      mkSellTransaction scenarioRates "2024-0205-10".data 1 1 =
        some ⟨scenarioRates, "2024-0205-10".data, n, 1, 1⟩) ∧
    ∃ n, timing2id " +2_024-0205-10".data = some n ∧
      mkBuyTransaction scenarioRates " +2_024-0205-10".data 1 1 =
        some ⟨scenarioRates, " +2_024-0205-10".data, n, 1, 1, false, []⟩ ∧
      mkSellTransaction scenarioRates " +2_024-0205-10".data 1 1 =
        some ⟨scenarioRates, " +2_024-0205-10".data, n, 1, 1⟩ :=
  ⟨(construct_format_check scenarioRates "2024".data 1 1).1 rfl,
   (construct_format_check scenarioRates "2024-02x5-10".data 1 1).1 rfl,
   (construct_format_check scenarioRates "2024-0205-10".data 1 1).2 rfl,
   (construct_format_check scenarioRates " +2_024-0205-10".data 1 1).2 rfl⟩

/-- C9: `timing2id` is not injective over all well-formed timings: the
distinct timings `"2024-0205-10"` and `"2024-205-10"` share the
identifier 2024020510, and a sell whose `buy_timing` is `"2024-205-10"`
is matched against the buy recorded under `"2024-0205-10"` (it succeeds
rather than failing as not found). -/
theorem timing2id_collision :
    "2024-205-10".data ≠ "2024-0205-10".data ∧
    timing2id "2024-205-10".data = some 2024020510 ∧
    timing2id "2024-0205-10".data = some 2024020510 ∧
    (scenarioStock1.sell "2024-205-10".data "2024-0312-14".data 36.36 50).1 =
      none :=
  ⟨by decide, rfl, rfl, rfl⟩

end Stocker
